import Mathlib

/-!
Verification of the SSR build/render core of the `astro` repository:
`src/packages/astro/src/core/build/vite-plugin-ssr.ts` (manifest builder,
SSR bundle synthesizer) and the render-context file bundled with it
(`createResult`, `Slots`, `onlyAvailableInSSR`, `getFunctionExpression`).

The embedding is shallow: JS objects become structures, JS `Map`s and plain
objects become association lists (first binding wins on lookup, as in JS),
asynchronous functions become pure functions (rendering is single-threaded
cooperative per the spec), thrown exceptions become `Except.error`, and the
JSON serialization performed by `JSON.stringify` / `JSON.parse` is modelled
by an executable renderer and parser over a `Json` value type.
-/

namespace AstroSSR

/-- JSON values, as produced by `JSON.stringify` on the serialized manifest.
The manifest only ever serializes `null`, strings, arrays and objects
(numbers and booleans do not occur in it), so those are the constructors. -/
inductive Json where
  | null : Json
  | str : String → Json
  | arr : List Json → Json
  | obj : List (String × Json) → Json
deriving Repr

/-- One character of `JSON.stringify`'s string escaping: quote, backslash and
the common control characters get a backslash escape, everything else is
emitted unchanged. -/
def escapeChar (c : Char) : List Char :=
  if c = '"' then ['\\', '"']
  else if c = '\\' then ['\\', '\\']
  else if c = '\n' then ['\\', 'n']
  else if c = '\r' then ['\\', 'r']
  else if c = '\t' then ['\\', 't']
  else [c]

/-- `JSON.stringify` string-body escaping. -/
def escapeL : List Char → List Char
  | [] => []
  | c :: rest => escapeChar c ++ escapeL rest

mutual

/-- Render a JSON value exactly as `JSON.stringify` does (no whitespace). -/
def renderL : Json → List Char
  | .null => ['n', 'u', 'l', 'l']
  | .str s => '"' :: (escapeL s.data ++ ['"'])
  | .arr xs => '[' :: (renderItemsL xs ++ [']'])
  | .obj fs => '\x7b' :: (renderFieldsL fs ++ ['\x7d'])

/-- Comma-separated rendering of array elements. -/
def renderItemsL : List Json → List Char
  | [] => []
  | [x] => renderL x
  | x :: y :: rest => renderL x ++ ',' :: renderItemsL (y :: rest)

/-- Comma-separated rendering of object fields (`"key":value`). -/
def renderFieldsL : List (String × Json) → List Char
  | [] => []
  | [(k, v)] => '"' :: (escapeL k.data ++ '"' :: ':' :: renderL v)
  | (k, v) :: f :: rest =>
    ('"' :: (escapeL k.data ++ '"' :: ':' :: renderL v)) ++ ',' :: renderFieldsL (f :: rest)

end

/-- Inverse of `escapeChar` on the character following a backslash. -/
def unescapeChar (c : Char) : Option Char :=
  if c = '"' then some '"'
  else if c = '\\' then some '\\'
  else if c = 'n' then some '\n'
  else if c = 'r' then some '\r'
  else if c = 't' then some '\t'
  else none

/-- Parse a JSON string body (the part after the opening quote), returning
the unescaped characters and the input after the closing quote. -/
def parseStringBody : List Char → Option (List Char × List Char)
  | [] => none
  | c :: rest =>
    if c = '"' then some ([], rest)
    else if c = '\\' then
      match rest with
      | [] => none
      | e :: rest2 =>
        match unescapeChar e with
        | some u =>
          match parseStringBody rest2 with
          | some p => some (u :: p.1, p.2)
          | none => none
        | none => none
    else
      match parseStringBody rest with
      | some p => some (c :: p.1, p.2)
      | none => none

mutual

/-- Fuel-indexed JSON parser for the fragment emitted by `renderL`. -/
def parseJson : Nat → List Char → Option (Json × List Char)
  | 0, _ => none
  | fuel + 1, cs =>
    match cs with
    | [] => none
    | c :: rest =>
      if c = 'n' then
        if rest.take 3 = ['u', 'l', 'l'] then some (.null, rest.drop 3) else none
      else if c = '"' then
        match parseStringBody rest with
        | some p => some (.str (String.mk p.1), p.2)
        | none => none
      else if c = '[' then
        match parseItems fuel rest with
        | some p => some (.arr p.1, p.2)
        | none => none
      else if c = '\x7b' then
        match parseFields fuel rest with
        | some p => some (.obj p.1, p.2)
        | none => none
      else none

/-- Parse array elements up to and including the closing bracket. -/
def parseItems : Nat → List Char → Option (List Json × List Char)
  | 0, _ => none
  | fuel + 1, cs =>
    match cs with
    | [] => none
    | c :: rest =>
      if c = ']' then some ([], rest)
      else
        match parseJson fuel (c :: rest) with
        | none => none
        | some (j, rest1) =>
          match rest1 with
          | [] => none
          | c1 :: rest2 =>
            if c1 = ',' then
              match parseItems fuel rest2 with
              | some p => some (j :: p.1, p.2)
              | none => none
            else if c1 = ']' then some ([j], rest2)
            else none

/-- Parse object fields up to and including the closing brace. -/
def parseFields : Nat → List Char → Option (List (String × Json) × List Char)
  | 0, _ => none
  | fuel + 1, cs =>
    match cs with
    | [] => none
    | c :: rest =>
      if c = '\x7d' then some ([], rest)
      else if c = '"' then
        match parseStringBody rest with
        | none => none
        | some (k, rest1) =>
          match rest1 with
          | [] => none
          | c1 :: rest2 =>
            if c1 = ':' then
              match parseJson fuel rest2 with
              | none => none
              | some (v, rest3) =>
                match rest3 with
                | [] => none
                | c2 :: rest4 =>
                  if c2 = ',' then
                    match parseFields fuel rest4 with
                    | some p => some ((String.mk k, v) :: p.1, p.2)
                    | none => none
                  else if c2 = '\x7d' then some ([(String.mk k, v)], rest4)
                  else none
            else none
      else none

end

mutual

/-- Fuel bound sufficient for `parseJson` to parse a rendered value. -/
def jsize : Json → Nat
  | .null => 1
  | .str _ => 1
  | .arr xs => jsizeItems xs + 2
  | .obj fs => jsizeFields fs + 2

/-- Fuel bound for `parseItems` (plus one) on rendered array elements. -/
def jsizeItems : List Json → Nat
  | [] => 0
  | x :: rest => jsize x + 1 + jsizeItems rest

/-- Fuel bound for `parseFields` (plus one) on rendered object fields. -/
def jsizeFields : List (String × Json) → Nat
  | [] => 0
  | (_, v) :: rest => jsize v + 1 + jsizeFields rest

end

/-- `JSON.parse`, requiring the whole input to be consumed.  The fuel
`2 * s.length + 1` dominates `jsize` of any value rendered into `s`. -/
def Json.parse (s : String) : Option Json :=
  match parseJson (2 * s.data.length + 1) s.data with
  | some (j, []) => some j
  | _ => none

/-- `JSON.stringify` at `String` level. -/
def Json.render (j : Json) : String := String.mk (renderL j)

/-! ## Association lists as JS `Map`s / plain objects -/

/-- Lookup in an association list, first binding wins (JS `Map.get` /
property access on an object built with unique keys). -/
def lookupStr {β : Type _} : List (String × β) → String → Option β
  | [], _ => none
  | (k, v) :: rest, name => if k = name then some v else lookupStr rest name

/-- JS `map[k] = v` / `Map.set`: replace the value in place when the key is
already bound (keeping key order), otherwise append the new binding. -/
def jsSet {β : Type _} (m : List (String × β)) (k : String) (v : β) : List (String × β) :=
  if m.any (fun p => p.1 == k) then m.map (fun p => if p.1 = k then (k, v) else p)
  else m ++ [(k, v)]

/-- `Object.fromEntries`: build a fresh object by setting each entry in
iteration order (so the result is a copy, never an alias of the input). -/
def fromEntries {β : Type _} (l : List (String × β)) : List (String × β) :=
  l.foldl (fun o p => jsSet o p.1 p.2) []

/-! ## Manifest builder (`vite-plugin-ssr.ts`) -/

/-- `export const virtualModuleId = '@astrojs-ssr-virtual-entry'`. -/
def virtualModuleId : String := "@astrojs-ssr-virtual-entry"

/-- `const resolvedVirtualModuleId = '\0' + virtualModuleId`. -/
def resolvedVirtualModuleId : String := "\x00" ++ virtualModuleId

/-- `const manifestReplace = '@@ASTRO_MANIFEST_REPLACE@@'`. -/
def manifestReplace : String := "@@ASTRO_MANIFEST_REPLACE@@"

/-- Modelled from the spec: `BEFORE_HYDRATION_SCRIPT_ID` is the reserved
"before-hydration" entry-module specifier imported from
`vite-plugin-scripts` (a module outside this excerpt); the spec only says it
is one fixed string, so a fixed string stands in for it. -/
def BEFORE_HYDRATION_SCRIPT_ID : String := "astro:scripts/before-hydration.js"

/-- The inert empty-module placeholder URI that unconditionally overrides the
before-hydration specifier in the entry-module mapping. -/
def beforeHydrationPlaceholder : String :=
  "data:text/javascript;charset=utf-8,//[no before-hydration script]"

/-- Per-page build data accumulated by the surrounding pipeline
(`eachPageData(internals)` yields these).  Scripts and css are kept in
insertion order (`Array.from` of the underlying sets); `hoistedScript` is
`string | undefined`; the route descriptor `Rd` is opaque here. -/
structure PageBuildData (Rd : Type) where
  scripts : List String
  hoistedScript : Option String
  css : List String
  route : Rd

/-- Build internals consumed by `buildManifest`: the pages in their stable
build-internals order, and the specifier→bundle-reference table
(`entrySpecifierToBundleMap`, a JS `Map`). -/
structure BuildInternals (Rd : Type) where
  pages : List (PageBuildData Rd)
  entrySpecifierToBundleMap : List (String × String)

/-- The slice of `astroConfig` that `buildManifest` reads.
`markdownRenderJson` is the JSON image of
`\x7b render: [astroRemark, astroConfig.markdown] \x7d`, whose two components
are opaque external values. -/
structure AstroConfig where
  site : Option String
  markdownRenderJson : Json

/-- The slice of `StaticBuildOptions` that `buildManifest` reads. -/
structure StaticBuildOptions where
  astroConfig : AstroConfig

/-- One entry of the serialized manifest's `routes` array
(`SerializedRouteInfo`); `routeData` is the opaque output of the external
`serializeRouteData` collaborator, already JSON. -/
structure SerializedRouteInfo where
  file : String
  links : List String
  scripts : List String
  routeData : Json
deriving Repr

/-- The serialized SSR manifest (`SerializedSSRManifest`). `markdown` holds
the JSON image of the markdown field; `pageMap` is `null as any` at build
time, hence an `Option`. -/
structure SerializedSSRManifest where
  routes : List SerializedRouteInfo
  site : Option String
  markdown : Json
  pageMap : Option Json
  renderers : List Json
  entryModules : List (String × String)
deriving Repr

/-- `buildManifest(opts, internals)`.  The external `serializeRouteData`
collaborator is passed in as a function (the core treats it as opaque).
Per page: `Array.from(pageData.scripts)` with the hoisted script unshifted
when `pageData.hoistedScript` is truthy (a JS truthiness test on a
`string | undefined`, so the empty string does not count); `file` is left
empty; the entry-module mapping is a fresh copy of
`internals.entrySpecifierToBundleMap` (`Object.fromEntries`) with the
before-hydration specifier unconditionally overwritten. -/
def buildManifest {Rd : Type} (opts : StaticBuildOptions) (internals : BuildInternals Rd)
    (serializeRouteData : Rd → Json) : SerializedSSRManifest :=
  let routes := internals.pages.map (fun pageData =>
    let scripts :=
      match pageData.hoistedScript with
      | some h => if h = "" then pageData.scripts else h :: pageData.scripts
      | none => pageData.scripts
    { file := ""
      links := pageData.css
      scripts := scripts
      routeData := serializeRouteData pageData.route : SerializedRouteInfo })
  let entryModules :=
    jsSet (fromEntries internals.entrySpecifierToBundleMap) BEFORE_HYDRATION_SCRIPT_ID
      "data:text/javascript;charset=utf-8,//[no before-hydration script]"
  { routes := routes
    site := opts.astroConfig.site
    markdown := opts.astroConfig.markdownRenderJson
    pageMap := none
    renderers := []
    entryModules := entryModules }

/-- `buildManifest` seen as a state transformer on the build internals: the
entry-module mapping is built on a fresh `Object.fromEntries` copy and the
before-hydration override mutates only that copy, so the internals come back
exactly as they went in. -/
def buildManifestSt {Rd : Type} (opts : StaticBuildOptions) (internals : BuildInternals Rd)
    (serializeRouteData : Rd → Json) : SerializedSSRManifest × BuildInternals Rd :=
  (buildManifest opts internals serializeRouteData, internals)

/-- JSON image of one serialized route, with the object-literal key order of
the source (`file`, `links`, `scripts`, `routeData`). -/
def routeInfoJson (r : SerializedRouteInfo) : Json :=
  .obj [("file", .str r.file),
        ("links", .arr (r.links.map Json.str)),
        ("scripts", .arr (r.scripts.map Json.str)),
        ("routeData", r.routeData)]

/-- JSON image of the whole manifest as `JSON.stringify` sees it: keys in
object-literal order; an `undefined` site is omitted entirely; `pageMap`
serializes to `null`. -/
def manifestJson (m : SerializedSSRManifest) : Json :=
  .obj ([("routes", Json.arr (m.routes.map routeInfoJson))]
    ++ (match m.site with
        | some s => [("site", Json.str s)]
        | none => [])
    ++ [("markdown", m.markdown),
        ("pageMap", match m.pageMap with | some j => j | none => Json.null),
        ("renderers", Json.arr m.renderers),
        ("entryModules", Json.obj (m.entryModules.map (fun p => (p.1, Json.str p.2))))])

/-- `JSON.stringify(manifest)`. -/
def jsonStringify (m : SerializedSSRManifest) : String := Json.render (manifestJson m)

/-! ## SSR bundle synthesizer: placeholder substitution (`generateBundle`) -/

/-- Is this character one of the quotes the substitution pattern
`/['"]@@ASTRO_MANIFEST_REPLACE@@['"]/` accepts? -/
def isQuote (c : Char) : Bool := c = Char.ofNat 39 || c = '"'

/-- If the input starts with a quoted placeholder token (`'TOKEN'`, with
either quote on either side, as the permissive pattern allows), return the
input after it. -/
def stripPlaceholder : List Char → Option (List Char)
  | [] => none
  | c :: rest =>
    if isQuote c then
      if rest.take manifestReplace.data.length = manifestReplace.data then
        match rest.drop manifestReplace.data.length with
        | c2 :: rest2 => if isQuote c2 then some rest2 else none
        | [] => none
      else none
    else none

/-- `code.replace(exp, () => repl)`: substitute the replacement for the first
match of the quoted-placeholder pattern, leaving everything else alone. -/
def replaceFirst (repl : List Char) : List Char → List Char
  | [] => []
  | c :: rest =>
    match stripPlaceholder (c :: rest) with
    | some rem => repl ++ rem
    | none => c :: replaceFirst repl rest

/-- One emitted chunk of the final bundle: `chunk.type === 'asset'` is the
`isAsset` flag, `modules` is the set of module ids compiled into it
(membership models the truthiness test `chunk.modules[id]`). -/
structure Chunk where
  isAsset : Bool
  modules : List String
  code : String

/-- `generateBundle(_opts, bundle)` of the plugin: build the manifest, then
for every non-asset chunk containing the resolved virtual module, replace
the first quoted placeholder in its code with `JSON.stringify(manifest)`. -/
def generateBundle {Rd : Type} (opts : StaticBuildOptions) (internals : BuildInternals Rd)
    (serializeRouteData : Rd → Json) (bundle : List Chunk) : List Chunk :=
  let manifest := buildManifest opts internals serializeRouteData
  bundle.map (fun chunk =>
    if chunk.isAsset then chunk
    else if chunk.modules.contains resolvedVirtualModuleId then
      { chunk with code := String.mk (replaceFirst (jsonStringify manifest).data chunk.code.data) }
    else chunk)

/-! ## Decoding the manifest fields back out of JSON -/

/-- Property lookup on a JSON object (first binding wins). -/
def lookupField : List (String × Json) → String → Option Json
  | [], _ => none
  | (k, v) :: rest, name => if k = name then some v else lookupField rest name

/-- Field access on a JSON value. -/
def getField : Json → String → Option Json
  | .obj fs, k => lookupField fs k
  | _, _ => none

/-- Decode a JSON string. -/
def asString : Json → Option String
  | .str s => some s
  | _ => none

/-- Decode a list of JSON strings. -/
def mapStrings : List Json → Option (List String)
  | [] => some []
  | x :: rest =>
    match asString x with
    | some s => (mapStrings rest).map (fun l => s :: l)
    | none => none

/-- Decode a JSON array of strings. -/
def asStringList : Json → Option (List String)
  | .arr xs => mapStrings xs
  | _ => none

/-- Decode one serialized route back from its JSON image. -/
def decodeRouteInfo (j : Json) : Option SerializedRouteInfo :=
  match getField j "file", getField j "links", getField j "scripts", getField j "routeData" with
  | some jf, some jl, some js, some jr =>
    (match asString jf, asStringList jl, asStringList js with
     | some f, some l, some s => some { file := f, links := l, scripts := s, routeData := jr }
     | _, _, _ => none)
  | _, _, _, _ => none

/-- Decode a list of serialized routes. -/
def mapRoutes : List Json → Option (List SerializedRouteInfo)
  | [] => some []
  | x :: rest =>
    match decodeRouteInfo x with
    | some r => (mapRoutes rest).map (fun l => r :: l)
    | none => none

/-- Decode the `routes` array. -/
def decodeRoutes : Json → Option (List SerializedRouteInfo)
  | .arr xs => mapRoutes xs
  | _ => none

/-- Decode the `entryModules` object back into its specifier→reference list. -/
def mapEntryModules : List (String × Json) → Option (List (String × String))
  | [] => some []
  | (k, v) :: rest =>
    match asString v with
    | some s => (mapEntryModules rest).map (fun l => (k, s) :: l)
    | none => none

/-- Decode `entryModules`. -/
def decodeEntryModules : Json → Option (List (String × String))
  | .obj fs => mapEntryModules fs
  | _ => none

/-- Read the `routes`, `site` and `entryModules` fields back out of a parsed
manifest JSON value. -/
def decodeManifestFields (j : Json) :
    Option (List SerializedRouteInfo × Option String × List (String × String)) :=
  match getField j "routes" with
  | none => none
  | some jr =>
    match decodeRoutes jr with
    | none => none
    | some routes =>
      let site := (getField j "site").bind asString
      match getField j "entryModules" with
      | none => none
      | some jem =>
        match decodeEntryModules jem with
        | none => none
        | some em => some (routes, site, em)

/-! ## Render context (`result.ts`): Slots, redirect, resolve shim

JS slot values are opaque; `V` is the universe of such values and a
`SlotsEnv` supplies the ambient operations the code applies to them:
JS truthiness, calling the slot thunk (`this.#slots[name]()`, awaited),
reading its optional `expressions` array, the external `renderSlot`
delegate (whose `SSRResult` argument is fixed per instance and therefore
absorbed into the environment; a `none` result is JS `null`/`undefined`),
and the `String(res)` coercion. -/

structure SlotsEnv (V : Type) where
  truthy : V → Bool
  callThunk : V → V
  expressions : V → Option (List (List V → V))
  renderSlot : V → Option V
  jsString : V → String

/-- `getFunctionExpression(slot)`: `undefined` unless the (truthy) component
has an `expressions` array of length exactly one. -/
def getFunctionExpression {V : Type} (env : SlotsEnv V) (slot : V) : Option (List V → V) :=
  if env.truthy slot = false then none
  else
    match env.expressions slot with
    | some [f] => some f
    | _ => none

/-- Names `key` for which `(this as any)[key] !== undefined` on a freshly
constructed `Slots` object: its own methods plus everything inherited from
`Object.prototype` (the private `#`-fields are not reachable by string
key). -/
def reservedSlotNames : List String :=
  ["has", "render", "constructor", "toString", "toLocaleString", "valueOf",
   "hasOwnProperty", "isPrototypeOf", "propertyIsEnumerable", "__proto__",
   "__defineGetter__", "__defineSetter__", "__lookupGetter__", "__lookupSetter__"]

/-- The per-instance state of a `Slots` object: the `#cache` map (a JS `Map`
whose stored values may be the `null`/`undefined` result of a render, hence
`Option String`) and the optional `#slots` record. -/
structure SlotsState (V : Type) where
  cache : List (String × Option String)
  slots : Option (List (String × V))

/-- The constructor's per-key reserved-name check, in key order; the first
colliding key throws. -/
def checkSlotNames : List String → Except String Unit
  | [] => Except.ok ()
  | k :: rest =>
    if reservedSlotNames.contains k then
      Except.error ("Unable to create a slot named \"" ++ k ++ "\". \"" ++ k
        ++ "\" is a reserved slot name!\nPlease update the name of this slot.")
    else checkSlotNames rest

/-- `new Slots(result, slots)`: starts with an empty cache; when a slot map
is supplied, every key is checked against the reserved names before any
rendering can happen. -/
def Slots.mk {V : Type} (slots : Option (List (String × V))) : Except String (SlotsState V) :=
  match slots with
  | none => Except.ok { cache := [], slots := none }
  | some m =>
    match checkSlotNames (m.map Prod.fst) with
    | Except.error e => Except.error e
    | Except.ok _ => Except.ok { cache := [], slots := some m }

/-- `has(name)`: `Boolean(this.#slots[name])` (false when no slot map). -/
def Slots.has {V : Type} (env : SlotsEnv V) (st : SlotsState V) (name : String) : Bool :=
  match st.slots with
  | none => false
  | some m =>
    match lookupStr m name with
    | some v => env.truthy v
    | none => false

/-- Observable effects of one `render` call: how often the slot thunk was
called, the argument lists passed to an inline expression function, and how
often the external `renderSlot` delegate was invoked. -/
structure SlotTrace (V : Type) where
  thunkCalls : Nat := 0
  exprArgs : List (List V) := []
  renderSlotCalls : Nat := 0
deriving Repr

/-- `render(name, args = [])`, returning the result (`none` is JS
`undefined`/`null`), the updated state, and the effect trace.  Control flow
follows the source: argument-less calls are cacheable and consult the cache
first; argumented calls bypass the cache and, when the slot content is a
single inline function expression, invoke it with the arguments; otherwise
the slot content is rendered unchanged, and only a cacheable call stores
its result. -/
def Slots.render {V : Type} (env : SlotsEnv V) (st : SlotsState V) (name : String)
    (args : List V) : Option String × SlotsState V × SlotTrace V :=
  let cacheable := args.isEmpty
  match st.slots with
  | none => (none, st, {})
  | some slotMap =>
    match (if cacheable then lookupStr st.cache name else none) with
    | some stored => (stored, st, {})
    | none =>
      if Slots.has env st name = false then (none, st, {})
      else
        match lookupStr slotMap name with
        | none => (none, st, {})
        | some v =>
          if cacheable = false then
            let component := env.callThunk v
            match getFunctionExpression env component with
            | some f =>
              ((env.renderSlot (f args)).map env.jsString, st,
                { thunkCalls := 1, exprArgs := [args], renderSlotCalls := 1 })
            | none =>
              ((env.renderSlot v).map env.jsString, st,
                { thunkCalls := 1, exprArgs := [], renderSlotCalls := 1 })
          else
            let content := (env.renderSlot v).map env.jsString
            (content, { st with cache := jsSet st.cache name content },
              { renderSlotCalls := 1 })

/-- A `Response` as constructed by `Astro.redirect`. -/
structure Response where
  status : Nat
  headers : List (String × String)
deriving Repr, DecidableEq

/-- `onlyAvailableInSSR(name)`: a capability stub that throws when called
(not when constructed). -/
def onlyAvailableInSSR (name : String) : String → Except String Response :=
  fun _ =>
    Except.error ("Oops, you are trying to use " ++ name ++ ", which is only available with SSR.")

/-- The redirect capability of the Astro faux-global: a real 301 response
builder when `ssr` is set, the throwing stub otherwise. -/
def astroRedirect (ssr : Bool) : String → Except String Response :=
  if ssr then fun path => Except.ok { status := 301, headers := [("Location", path)] }
  else onlyAvailableInSSR "Astro.redirect"

/-- One `warn(logging, type, message)` call to the logging sink. -/
structure Warning where
  category : String
  message : String
deriving Repr, DecidableEq

/-- `kleur`'s `bold` terminal styling. -/
def bold (s : String) : String := "\x1b[1m" ++ s ++ "\x1b[22m"

/-- The stylesheet-specific guidance text of the deprecated resolve shim. -/
def cssGuidance (path : String) : String :=
  "It looks like you are resolving styles. If you are adding a link tag, replace with this:\n---\nimport \""
    ++ path ++ "\";\n---\n"

/-- The script-specific guidance text of the deprecated resolve shim. -/
def scriptGuidance (path : String) : String :=
  "It looks like you are resolving scripts. If you are adding a script tag, replace with this:\n\n<script type=\"module\" src=\x7b(await import(\""
    ++ path
    ++ "?url\")).default\x7d></script>\n\nor consider make it a module like so:\n\n<script>\n\timport MyModule from \""
    ++ path ++ "\";\n</script>\n"

/-- The fallback guidance text (dynamic import) of the resolve shim. -/
def dynamicImportGuidance (path : String) : String :=
  "This can be replaced with a dynamic import like so: await import(\"" ++ path ++ "\")"

/-- The `Astro.resolve` shim.  `isCSSRequest` and `isScriptRequest` are the
external path classifiers (imported from `util.js` / `script.js`, outside
this excerpt); `astroGlobalResolve` is the partial's own resolver used in
legacy mode.  In non-legacy mode it warns through the logging sink (the
returned list) and returns the empty string. -/
def astroResolve (legacyBuild : Bool) (isCSSRequest isScriptRequest : String → Bool)
    (astroGlobalResolve : String → Except String String) (path : String) :
    List Warning × Except String String :=
  if legacyBuild = false then
    let extra :=
      if isCSSRequest path then cssGuidance path
      else if isScriptRequest path then scriptGuidance path
      else dynamicImportGuidance path
    ([{ category := "deprecation",
        message := bold "Astro.resolve()"
          ++ " is deprecated. We see that you are trying to resolve " ++ path ++ ".\n"
          ++ extra }],
     Except.ok "")
  else ([], astroGlobalResolve path)

/-- The Astro faux-global, restricted to the capabilities this spec covers
(`canonicalURL`, `params`, `props`, `request` and the hidden markdown hook
are passthrough or external). -/
structure AstroModel (V : Type) where
  redirect : String → Except String Response
  resolve : String → List Warning × Except String String
  slots : SlotsState V

/-- `createAstro(astroGlobal, props, slots)` as produced by `createResult`:
constructs the `Slots` object (which may throw on a reserved name) and wires
the mode-dependent redirect and resolve capabilities.  Construction itself
never evaluates the redirect stub — failure there is lazy, at call time. -/
def createAstro (V : Type) (ssr legacyBuild : Bool)
    (isCSSRequest isScriptRequest : String → Bool)
    (astroGlobalResolve : String → Except String String)
    (slots : Option (List (String × V))) : Except String (AstroModel V) :=
  match Slots.mk slots with
  | Except.error e => Except.error e
  | Except.ok astroSlots =>
    Except.ok
      { redirect := astroRedirect ssr
        resolve := astroResolve legacyBuild isCSSRequest isScriptRequest astroGlobalResolve
        slots := astroSlots }

/-! ## Concrete environments used by witnesses -/

/-- A concrete slot environment over `Unit`: every value is truthy, slot
content has no expressions array, and rendering yields `"out"`. -/
def unitSlotsEnv : SlotsEnv Unit :=
  { truthy := fun _ => true, callThunk := id, expressions := fun _ => none,
    renderSlot := fun _ => some (), jsString := fun _ => "out" }

/-- A concrete slot environment over `Nat`: slot content is a single inline
expression that sums its arguments; rendering stringifies. -/
def natSlotsEnv : SlotsEnv Nat :=
  { truthy := fun _ => true, callThunk := fun x => x,
    expressions := fun _ => some [fun l => l.foldl (· + ·) 0],
    renderSlot := fun x => some x, jsString := fun x => toString x }

/-! ## Helper lemmas -/

theorem lookupStr_map_override {β : Type _} (k : String) (v : β) :
    ∀ m : List (String × β), m.any (fun p => p.1 == k) = true →
      lookupStr (m.map (fun p => if p.1 = k then (k, v) else p)) k = some v := by
  intro m
  induction m with
  | nil => intro h; simp at h
  | cons p rest ih =>
    intro h
    by_cases hk : p.1 = k
    · rw [List.map_cons, if_pos hk]
      simp [lookupStr]
    · have hr : rest.any (fun p => p.1 == k) = true := by
        rw [List.any_cons, Bool.or_eq_true] at h
        rcases h with h | h
        · exact absurd (by simpa using h) hk
        · exact h
      simp only [List.map_cons, if_neg hk]
      rw [lookupStr, if_neg hk]
      exact ih hr

theorem lookupStr_append_of_not_mem {β : Type _} (k : String) (v : β) :
    ∀ m : List (String × β), m.any (fun p => p.1 == k) = false →
      lookupStr (m ++ [(k, v)]) k = some v := by
  intro m
  induction m with
  | nil => intro _; simp [lookupStr]
  | cons p rest ih =>
    intro h
    rw [List.any_cons, Bool.or_eq_false_iff] at h
    have hk : ¬p.1 = k := by simpa using h.1
    rw [List.cons_append, lookupStr, if_neg hk]
    exact ih h.2

/-- Looking up a key right after `jsSet` of that key yields the new value,
regardless of what the map held before. -/
theorem lookupStr_jsSet {β : Type _} (m : List (String × β)) (k : String) (v : β) :
    lookupStr (jsSet m k v) k = some v := by
  unfold jsSet
  by_cases h : m.any (fun p => p.1 == k) = true
  · rw [if_pos h]; exact lookupStr_map_override k v m h
  · rw [if_neg h]
    exact lookupStr_append_of_not_mem k v m (Bool.not_eq_true _ ▸ h)

/-- Inverting a successful `Slots` construction: the state starts with an
empty cache and holds the given slot map. -/
theorem Slots.mk_ok {V : Type} (slotMap : List (String × V)) (st : SlotsState V)
    (hmk : Slots.mk (some slotMap) = Except.ok st) :
    st = { cache := [], slots := some slotMap } := by
  cases hc : checkSlotNames (slotMap.map Prod.fst) with
  | error e => simp [Slots.mk, hc] at hmk
  | ok u => simp [Slots.mk, hc] at hmk; exact hmk.symm

/-- A fresh cacheable render: renders the slot content once through the
external delegate, caches the (possibly null) result under the name, and
never calls the slot thunk. -/
theorem slots_render_fresh_cacheable {V : Type} (env : SlotsEnv V)
    (slotMap : List (String × V)) (n : String) (v : V)
    (hv : lookupStr slotMap n = some v) (ht : env.truthy v = true) :
    Slots.render env { cache := [], slots := some slotMap } n []
      = ((env.renderSlot v).map env.jsString,
         { cache := [(n, (env.renderSlot v).map env.jsString)], slots := some slotMap },
         { thunkCalls := 0, exprArgs := [], renderSlotCalls := 1 }) := by
  simp [Slots.render, Slots.has, hv, ht, lookupStr, jsSet]

/-- A cacheable render against a cache that already holds the name returns
the stored value with no effects at all. -/
theorem slots_render_cached {V : Type} (env : SlotsEnv V) (st : SlotsState V)
    (slotMap : List (String × V)) (n : String) (stored : Option String)
    (hs : st.slots = some slotMap) (hc : lookupStr st.cache n = some stored) :
    Slots.render env st n [] = (stored, st, {}) := by
  unfold Slots.render
  rw [hs]
  simp [hc]

/-! ## Parser correctness: `Json.parse` inverts `Json.render` -/

theorem parseStringBody_escapeChar (c : Char) (t : List Char) (s : List Char) (rest : List Char)
    (ht : parseStringBody t = some (s, rest)) :
    parseStringBody (escapeChar c ++ t) = some (c :: s, rest) := by
  unfold escapeChar
  by_cases h1 : c = '"'
  · subst h1; simp [parseStringBody, unescapeChar, ht]
  · rw [if_neg h1]
    by_cases h2 : c = '\\'
    · subst h2; simp [parseStringBody, unescapeChar, ht]
    · rw [if_neg h2]
      by_cases h3 : c = '\n'
      · subst h3; simp [parseStringBody, unescapeChar, ht]
      · rw [if_neg h3]
        by_cases h4 : c = '\r'
        · subst h4; simp [parseStringBody, unescapeChar, ht]
        · rw [if_neg h4]
          by_cases h5 : c = '\t'
          · subst h5; simp [parseStringBody, unescapeChar, ht]
          · rw [if_neg h5]
            rw [List.singleton_append, parseStringBody.eq_def]
            simp only [ht, h1, h2, if_false, ite_false]

theorem parseStringBody_escape : ∀ (s rest : List Char),
    parseStringBody (escapeL s ++ '"' :: rest) = some (s, rest)
  | [], rest => by
    rw [escapeL, List.nil_append, parseStringBody.eq_def]
    simp
  | c :: cs, rest => by
    rw [escapeL, List.append_assoc]
    exact parseStringBody_escapeChar c _ cs rest (parseStringBody_escape cs rest)

theorem stringMk_data (s : String) : String.mk s.data = s := by
  cases s
  rfl

/-- Every rendered JSON value starts with one of the four value-start
characters. -/
theorem renderL_head (j : Json) : ∃ c cs, renderL j = c :: cs
    ∧ (c = 'n' ∨ c = '"' ∨ c = '[' ∨ c = '\x7b') := by
  cases j with
  | null => exact ⟨'n', ['u', 'l', 'l'], by rw [renderL], Or.inl rfl⟩
  | str s => exact ⟨'"', escapeL s.data ++ ['"'], by rw [renderL], Or.inr (Or.inl rfl)⟩
  | arr xs =>
    exact ⟨'[', renderItemsL xs ++ [']'], by rw [renderL], Or.inr (Or.inr (Or.inl rfl))⟩
  | obj fs =>
    exact ⟨'\x7b', renderFieldsL fs ++ ['\x7d'], by rw [renderL], Or.inr (Or.inr (Or.inr rfl))⟩

theorem jsize_pos : ∀ j : Json, 1 ≤ jsize j := by
  intro j
  cases j with
  | null => rw [jsize]
  | str s => rw [jsize]
  | arr xs => rw [jsize]; omega
  | obj fs => rw [jsize]; omega

mutual

theorem parseJson_renderL : ∀ (j : Json) (fuel : Nat) (rest : List Char),
    jsize j ≤ fuel → parseJson fuel (renderL j ++ rest) = some (j, rest)
  | .null, fuel + 1, rest, _ => by
    rw [renderL]
    simp [parseJson, List.take, List.drop]
  | .str s, fuel + 1, rest, _ => by
    rw [renderL]
    simp only [List.cons_append, List.append_assoc, List.singleton_append]
    simp [parseJson, parseStringBody_escape s.data rest, stringMk_data]
  | .arr xs, fuel + 1, rest, h => by
    rw [renderL]
    simp only [List.cons_append, List.append_assoc, List.singleton_append]
    have hb : jsizeItems xs + 1 ≤ fuel := by rw [jsize] at h; omega
    have hi := parseItems_renderL xs fuel rest hb
    simp [parseJson, hi]
  | .obj fs, fuel + 1, rest, h => by
    rw [renderL]
    simp only [List.cons_append, List.append_assoc, List.singleton_append]
    have hb : jsizeFields fs + 1 ≤ fuel := by rw [jsize] at h; omega
    have hi := parseFields_renderL fs fuel rest hb
    simp [parseJson, hi]
  | j, 0, rest, h => by
    have := jsize_pos j
    omega

theorem parseItems_renderL : ∀ (xs : List Json) (fuel : Nat) (rest : List Char),
    jsizeItems xs + 1 ≤ fuel → parseItems fuel (renderItemsL xs ++ ']' :: rest) = some (xs, rest)
  | [], fuel + 1, rest, _ => by
    rw [renderItemsL]
    simp [parseItems]
  | [x], fuel + 1, rest, h => by
    rw [renderItemsL]
    obtain ⟨c, cs, hrx, hstart⟩ := renderL_head x
    have hc : ¬(c = ']') := by rcases hstart with h | h | h | h <;> subst h <;> decide
    have hb : jsize x ≤ fuel := by rw [jsizeItems, jsizeItems] at h; omega
    have hj := parseJson_renderL x fuel (']' :: rest) hb
    have hre : c :: (cs ++ ']' :: rest) = renderL x ++ ']' :: rest := by
      rw [hrx, List.cons_append]
    rw [hrx, List.cons_append, parseItems, if_neg hc, hre, hj]
    simp
  | x :: y :: tl, fuel + 1, rest, h => by
    rw [renderItemsL]
    obtain ⟨c, cs, hrx, hstart⟩ := renderL_head x
    have hc : ¬(c = ']') := by rcases hstart with h | h | h | h <;> subst h <;> decide
    have hx1 : 1 ≤ jsize x := jsize_pos x
    have hb : jsize x ≤ fuel := by rw [jsizeItems] at h; omega
    have hb2 : jsizeItems (y :: tl) + 1 ≤ fuel := by rw [jsizeItems] at h; omega
    have hj := parseJson_renderL x fuel (',' :: (renderItemsL (y :: tl) ++ ']' :: rest)) hb
    have hi := parseItems_renderL (y :: tl) fuel rest hb2
    have hre : c :: (cs ++ ',' :: (renderItemsL (y :: tl) ++ ']' :: rest))
        = renderL x ++ ',' :: (renderItemsL (y :: tl) ++ ']' :: rest) := by
      rw [hrx, List.cons_append]
    rw [List.append_assoc, List.cons_append, hrx, List.cons_append, parseItems, if_neg hc,
      hre, hj]
    simp [hi]
  | xs, 0, rest, h => by omega

theorem parseFields_renderL : ∀ (fs : List (String × Json)) (fuel : Nat) (rest : List Char),
    jsizeFields fs + 1 ≤ fuel → parseFields fuel (renderFieldsL fs ++ '\x7d' :: rest) = some (fs, rest)
  | [], fuel + 1, rest, _ => by
    rw [renderFieldsL]
    simp [parseFields]
  | [(k, v)], fuel + 1, rest, h => by
    rw [renderFieldsL]
    have hb : jsize v ≤ fuel := by rw [jsizeFields, jsizeFields] at h; omega
    have hj := parseJson_renderL v fuel ('\x7d' :: rest) hb
    have hs := parseStringBody_escape k.data (':' :: (renderL v ++ '\x7d' :: rest))
    simp only [List.cons_append, List.append_assoc]
    rw [parseFields]
    simp [hs, hj, stringMk_data]
  | (k, v) :: g :: tl, fuel + 1, rest, h => by
    rw [renderFieldsL]
    have hv1 : 1 ≤ jsize v := jsize_pos v
    have hb : jsize v ≤ fuel := by rw [jsizeFields] at h; omega
    have hb2 : jsizeFields (g :: tl) + 1 ≤ fuel := by rw [jsizeFields] at h; omega
    have hj := parseJson_renderL v fuel (',' :: (renderFieldsL (g :: tl) ++ '\x7d' :: rest)) hb
    have hi := parseFields_renderL (g :: tl) fuel rest hb2
    have hs := parseStringBody_escape k.data
      (':' :: (renderL v ++ ',' :: (renderFieldsL (g :: tl) ++ '\x7d' :: rest)))
    simp only [List.cons_append, List.append_assoc]
    rw [parseFields]
    simp [hs, hj, hi, stringMk_data]
  | fs, 0, rest, h => by omega

end

mutual

theorem jsize_le_two_mul : ∀ j : Json, jsize j ≤ 2 * (renderL j).length
  | .null => by rw [jsize, renderL]; simp
  | .str s => by rw [jsize, renderL]; simp; omega
  | .arr xs => by
    have := jsizeItems_le_two_mul xs
    rw [jsize, renderL]
    simp only [List.length_cons, List.length_append, List.length_singleton]
    omega
  | .obj fs => by
    have := jsizeFields_le_two_mul fs
    rw [jsize, renderL]
    simp only [List.length_cons, List.length_append, List.length_singleton]
    omega

theorem jsizeItems_le_two_mul : ∀ xs : List Json, jsizeItems xs ≤ 2 * (renderItemsL xs).length + 1
  | [] => by rw [jsizeItems, renderItemsL]; simp
  | [x] => by
    have := jsize_le_two_mul x
    rw [jsizeItems, jsizeItems, renderItemsL]
    omega
  | x :: y :: tl => by
    have h1 := jsize_le_two_mul x
    have h2 := jsizeItems_le_two_mul (y :: tl)
    rw [jsizeItems, renderItemsL]
    simp only [List.length_append, List.length_cons]
    omega

theorem jsizeFields_le_two_mul : ∀ fs : List (String × Json),
    jsizeFields fs ≤ 2 * (renderFieldsL fs).length + 1
  | [] => by rw [jsizeFields, renderFieldsL]; simp
  | [(k, v)] => by
    have := jsize_le_two_mul v
    rw [jsizeFields, jsizeFields, renderFieldsL]
    simp only [List.length_cons, List.length_append]
    omega
  | (k, v) :: g :: tl => by
    have h1 := jsize_le_two_mul v
    have h2 := jsizeFields_le_two_mul (g :: tl)
    rw [jsizeFields, renderFieldsL]
    simp only [List.length_cons, List.length_append]
    omega

end

/-- `JSON.parse` inverts `JSON.stringify` on every JSON value. -/
theorem Json.parse_render (j : Json) : Json.parse (Json.render j) = some j := by
  unfold Json.parse Json.render
  have hdata : (String.mk (renderL j)).data = renderL j := rfl
  rw [hdata]
  have hb := jsize_le_two_mul j
  have hp := parseJson_renderL j (2 * (renderL j).length + 1) [] (by omega)
  rw [List.append_nil] at hp
  rw [hp]

/-! ## Decoder round trips -/

theorem mapStrings_roundtrip : ∀ l : List String, mapStrings (l.map Json.str) = some l
  | [] => rfl
  | s :: r => by
    rw [List.map_cons, mapStrings]
    simp [asString, mapStrings_roundtrip r]

theorem asStringList_roundtrip (l : List String) :
    asStringList (Json.arr (l.map Json.str)) = some l := by
  simp [asStringList, mapStrings_roundtrip]

theorem decodeRouteInfo_roundtrip (r : SerializedRouteInfo) :
    decodeRouteInfo (routeInfoJson r) = some r := by
  simp [decodeRouteInfo, routeInfoJson, getField, lookupField, asString, asStringList,
    mapStrings_roundtrip]

theorem mapRoutes_roundtrip : ∀ rs : List SerializedRouteInfo,
    mapRoutes (rs.map routeInfoJson) = some rs
  | [] => rfl
  | r :: tl => by
    rw [List.map_cons, mapRoutes]
    simp [decodeRouteInfo_roundtrip r, mapRoutes_roundtrip tl]

theorem mapEntryModules_roundtrip : ∀ em : List (String × String),
    mapEntryModules (em.map (fun p => (p.1, Json.str p.2))) = some em
  | [] => rfl
  | p :: tl => by
    rw [List.map_cons, mapEntryModules]
    simp [asString, mapEntryModules_roundtrip tl]

/-- Reading `routes`, `site` and `entryModules` back from the manifest's
JSON image recovers the original fields exactly. -/
theorem decodeManifestFields_roundtrip (m : SerializedSSRManifest) :
    decodeManifestFields (manifestJson m) = some (m.routes, m.site, m.entryModules) := by
  cases hs : m.site with
  | none =>
    simp [decodeManifestFields, manifestJson, hs, getField, lookupField, decodeRoutes,
      mapRoutes_roundtrip, decodeEntryModules, mapEntryModules_roundtrip]
  | some s =>
    simp [decodeManifestFields, manifestJson, hs, getField, lookupField, decodeRoutes,
      mapRoutes_roundtrip, decodeEntryModules, mapEntryModules_roundtrip, asString]

/-! ## Placeholder substitution -/

theorem stripPlaceholder_not_quote (c : Char) (rest : List Char) (h : isQuote c = false) :
    stripPlaceholder (c :: rest) = none := by
  rw [stripPlaceholder]
  simp [h]

theorem stripPlaceholder_match (q1 q2 : Char) (h1 : isQuote q1 = true) (h2 : isQuote q2 = true)
    (post : List Char) :
    stripPlaceholder (q1 :: (manifestReplace.data ++ q2 :: post)) = some post := by
  rw [stripPlaceholder, if_pos h1, List.take_left, if_pos rfl, List.drop_left]
  simp [h2]

theorem replaceFirst_at (repl : List Char) : ∀ (pre : List Char),
    (∀ c ∈ pre, isQuote c = false) → ∀ (q1 q2 : Char), isQuote q1 = true → isQuote q2 = true →
    ∀ post, replaceFirst repl (pre ++ q1 :: (manifestReplace.data ++ q2 :: post))
      = pre ++ (repl ++ post)
  | [], h, q1, q2, h1, h2, post => by
    rw [List.nil_append, List.nil_append, replaceFirst, stripPlaceholder_match q1 q2 h1 h2 post]
  | c :: pre, h, q1, q2, h1, h2, post => by
    have hc : isQuote c = false := h c (List.mem_cons_self c pre)
    have ih := replaceFirst_at repl pre (fun d hd => h d (List.mem_cons_of_mem c hd)) q1 q2 h1 h2 post
    rw [List.cons_append, replaceFirst, stripPlaceholder_not_quote c _ hc, ih, List.cons_append]

/-! ## Claim theorems -/

/-- C1: for a `Slots` instance freshly constructed over a slot map that
contains slot `n` (a truthy slot value, i.e. one `has` reports), two
consecutive argument-less `render(n)` calls invoke the underlying slot
content exactly once in total (one `renderSlot` invocation on the first
call, no thunk call, and no effect at all on the second call), both calls
return the identical result, and the first call stored that result in the
per-name cache. -/
theorem slots_render_cacheable_renders_once (V : Type) (env : SlotsEnv V)
    (slotMap : List (String × V)) (st0 : SlotsState V) (n : String) (v : V)
    (hmk : Slots.mk (some slotMap) = Except.ok st0)
    (hv : lookupStr slotMap n = some v)
    (ht : env.truthy v = true) :
    (Slots.render env st0 n []).1 = (Slots.render env (Slots.render env st0 n []).2.1 n []).1
    ∧ (Slots.render env st0 n []).2.2.renderSlotCalls = 1
    ∧ (Slots.render env st0 n []).2.2.thunkCalls = 0
    ∧ (Slots.render env (Slots.render env st0 n []).2.1 n []).2.2 = ({} : SlotTrace V)
    ∧ lookupStr (Slots.render env st0 n []).2.1.cache n = some (Slots.render env st0 n []).1 := by
  have hst : st0 = { cache := [], slots := some slotMap } := Slots.mk_ok slotMap st0 hmk
  subst hst
  rw [slots_render_fresh_cacheable env slotMap n v hv ht]
  have h2 := slots_render_cached env
    { cache := [(n, (env.renderSlot v).map env.jsString)], slots := some slotMap }
    slotMap n ((env.renderSlot v).map env.jsString) rfl (by simp [lookupStr])
  rw [h2]
  refine ⟨rfl, rfl, rfl, rfl, ?_⟩
  simp [lookupStr]

/-- C1 witness: a concrete one-slot instance. -/
theorem slots_render_cacheable_renders_once_witness :
    Slots.mk (some [("default", ())]) =
      Except.ok ({ cache := [], slots := some [("default", ())] } : SlotsState Unit)
    ∧ lookupStr [("default", ())] "default" = some ()
    ∧ unitSlotsEnv.truthy () = true
    ∧ ((Slots.render unitSlotsEnv { cache := [], slots := some [("default", ())] } "default" []).1
      = (Slots.render unitSlotsEnv
          (Slots.render unitSlotsEnv
            { cache := [], slots := some [("default", ())] } "default" []).2.1 "default" []).1)
    ∧ (Slots.render unitSlotsEnv
        { cache := [], slots := some [("default", ())] } "default" []).2.2.renderSlotCalls = 1 :=
  ⟨rfl, rfl, rfl,
    (slots_render_cacheable_renders_once Unit unitSlotsEnv
      [("default", ())] { cache := [], slots := some [("default", ())] } "default" ()
      rfl rfl rfl).1,
    (slots_render_cacheable_renders_once Unit unitSlotsEnv
      [("default", ())] { cache := [], slots := some [("default", ())] } "default" ()
      rfl rfl rfl).2.1⟩

/-- C2: with `ssr = true` the redirect capability yields a 301 response
whose `Location` header is the requested path; with `ssr = false` the Astro
object is still constructed successfully, but calling its redirect throws
the "only available with SSR" error at call time. -/
theorem astro_redirect_ssr_modes (path : String) :
    astroRedirect true path = Except.ok { status := 301, headers := [("Location", path)] }
    ∧ (∃ a : AstroModel Unit,
        createAstro Unit false false (fun _ => false) (fun _ => false)
          (fun _ => Except.ok "") none = Except.ok a
        ∧ a.redirect path
          = Except.error
              "Oops, you are trying to use Astro.redirect, which is only available with SSR.") :=
  ⟨rfl,
    ⟨{ redirect := astroRedirect false
       resolve := astroResolve false (fun _ => false) (fun _ => false) (fun _ => Except.ok "")
       slots := { cache := [], slots := none } },
      rfl, rfl⟩⟩

/-- C4: the entry-module mapping of every built manifest maps the reserved
before-hydration specifier to the fixed inert data URI, even when the
internals' specifier table already bound that key to a different value
(second conjunct: a table presetting the key to a real chunk reference is
still overridden). -/
theorem buildManifest_before_hydration_override {Rd : Type} (opts : StaticBuildOptions)
    (internals : BuildInternals Rd) (serializeRouteData : Rd → Json) :
    lookupStr (buildManifest opts internals serializeRouteData).entryModules
        BEFORE_HYDRATION_SCRIPT_ID = some beforeHydrationPlaceholder
    ∧ lookupStr (buildManifest opts
          { pages := [], entrySpecifierToBundleMap :=
              [(BEFORE_HYDRATION_SCRIPT_ID, "chunks/real-entry.mjs")] }
          serializeRouteData).entryModules BEFORE_HYDRATION_SCRIPT_ID
        = some beforeHydrationPlaceholder
    ∧ beforeHydrationPlaceholder ≠ "chunks/real-entry.mjs" := by
  refine ⟨?_, ?_, by decide⟩
  · simp only [buildManifest]
    exact lookupStr_jsSet _ _ _
  · simp only [buildManifest]
    exact lookupStr_jsSet _ _ _

/-- C5: an argumented render call on a slot whose content is a single inline
function expression invokes that function with exactly the supplied
arguments and renders its result; the cache is neither read (the result is
the same for every cache state, as the returned tuple does not depend on
`st.cache`) nor written (the state comes back unchanged). -/
theorem slots_render_args_bypass_cache (V : Type) (env : SlotsEnv V) (st : SlotsState V)
    (slotMap : List (String × V)) (n : String) (v : V) (f : List V → V) (args : List V)
    (hs : st.slots = some slotMap)
    (hv : lookupStr slotMap n = some v)
    (ht : env.truthy v = true)
    (hc : env.truthy (env.callThunk v) = true)
    (he : env.expressions (env.callThunk v) = some [f])
    (ha : args ≠ []) :
    Slots.render env st n args
      = ((env.renderSlot (f args)).map env.jsString, st,
         { thunkCalls := 1, exprArgs := [args], renderSlotCalls := 1 }) := by
  have hne : args.isEmpty = false := by
    cases args with
    | nil => exact absurd rfl ha
    | cons a l => rfl
  unfold Slots.render
  rw [hs]
  simp [hne, Slots.has, hs, hv, ht, getFunctionExpression, hc, he]

/-- C5 witness: slot content whose single inline expression sums its two
arguments; called with `[1, 2]` against a non-empty cache, it returns the
rendered `3`, reports the expression invocation with `[1, 2]`, and leaves
the cache untouched. -/
theorem slots_render_args_bypass_cache_witness :
    Slots.render natSlotsEnv
        { cache := [("n", some "stale")], slots := some [("n", (0 : Nat))] } "n" [1, 2]
      = (some "3", { cache := [("n", some "stale")], slots := some [("n", (0 : Nat))] },
         { thunkCalls := 1, exprArgs := [[1, 2]], renderSlotCalls := 1 }) :=
  slots_render_args_bypass_cache Nat natSlotsEnv
    { cache := [("n", some "stale")], slots := some [("n", (0 : Nat))] }
    [("n", (0 : Nat))] "n" 0 (fun l => l.foldl (· + ·) 0) [1, 2]
    rfl rfl rfl rfl rfl (by simp)

/-- C6: constructing `Slots` over a slot map containing any reserved
property name (such as `has` or `render`) throws the configuration error
during construction. -/
theorem slots_reserved_name_collision (V : Type) (m : List (String × V))
    (h : (m.map Prod.fst).any (fun k => reservedSlotNames.contains k) = true) :
    ∃ e, Slots.mk (some m) = Except.error e := by
  suffices h2 : ∃ e, checkSlotNames (m.map Prod.fst) = Except.error e by
    obtain ⟨e, he⟩ := h2
    exact ⟨e, by simp [Slots.mk, he]⟩
  generalize (m.map Prod.fst) = ks at h
  induction ks with
  | nil => simp at h
  | cons k rest ih =>
    by_cases hk : reservedSlotNames.contains k = true
    · exact ⟨_, by rw [checkSlotNames, if_pos hk]⟩
    · have hr : rest.any (fun k => reservedSlotNames.contains k) = true := by
        rw [List.any_cons, Bool.or_eq_true] at h
        exact h.resolve_left hk
      obtain ⟨e, he⟩ := ih hr
      exact ⟨e, by rw [checkSlotNames, if_neg hk]; exact he⟩

/-- C6 witness: a slot named `render` is rejected at construction. -/
theorem slots_reserved_name_collision_witness :
    ((([("render", ())] : List (String × Unit)).map Prod.fst).any
        (fun k => reservedSlotNames.contains k) = true)
    ∧ ∃ e, Slots.mk (some [("render", ())]) = Except.error e :=
  ⟨by decide, slots_reserved_name_collision Unit [("render", ())] (by decide)⟩

/-- C7: in non-legacy mode the resolve shim returns the empty string for
every path, never throws, and emits exactly one warning, which goes to the
`deprecation` category of the logging sink. -/
theorem astro_resolve_nonlegacy_returns_empty (isCSSRequest isScriptRequest : String → Bool)
    (astroGlobalResolve : String → Except String String) (path : String) :
    (astroResolve false isCSSRequest isScriptRequest astroGlobalResolve path).2 = Except.ok ""
    ∧ (astroResolve false isCSSRequest isScriptRequest astroGlobalResolve path).1.length = 1
    ∧ (astroResolve false isCSSRequest isScriptRequest astroGlobalResolve path).1.map
        Warning.category = ["deprecation"] :=
  ⟨rfl, rfl, rfl⟩

/-- C8: every built manifest is a partial snapshot: `pageMap` is null and
`renderers` is empty, left for runtime reconstitution. -/
theorem buildManifest_pageMap_renderers_empty {Rd : Type} (opts : StaticBuildOptions)
    (internals : BuildInternals Rd) (serializeRouteData : Rd → Json) :
    (buildManifest opts internals serializeRouteData).pageMap = none
    ∧ (buildManifest opts internals serializeRouteData).renderers = [] :=
  ⟨rfl, rfl⟩

/-- C3 counterexample: a page whose `hoistedScript` is the empty string is
"present" as a value, yet the JS truthiness test `if (pageData.hoistedScript)`
skips the unshift, so the route's scripts are not prepended with it. -/
theorem buildManifest_empty_hoisted_not_prepended :
    ((buildManifest { astroConfig := { site := none, markdownRenderJson := Json.null } }
        { pages := [{ scripts := ["A"], hoistedScript := some "", css := [], route := () }],
          entrySpecifierToBundleMap := [] }
        (fun _ => Json.null)).routes.map (fun r => r.scripts)) = [["A"]]
    ∧ [["A"]] ≠ [["", "A"]] :=
  ⟨rfl, by decide⟩

/-- C3 (amended): each route's scripts are the page's scripts in original
order, with the hoisted script prepended exactly when it is present and
non-empty (JS truthiness); in particular a page with hoisted `H` and scripts
`[A, B]` yields `[H, A, B]` and a page with no hoisted script and scripts
`[C]` yields `[C]`. -/
theorem buildManifest_scripts_order {Rd : Type} (opts : StaticBuildOptions)
    (internals : BuildInternals Rd) (serializeRouteData : Rd → Json) :
    ((buildManifest opts internals serializeRouteData).routes.map (fun r => r.scripts)
      = internals.pages.map (fun pd =>
          match pd.hoistedScript with
          | some h => if h = "" then pd.scripts else h :: pd.scripts
          | none => pd.scripts))
    ∧ ((buildManifest { astroConfig := { site := none, markdownRenderJson := Json.null } }
          { pages := [{ scripts := ["A", "B"], hoistedScript := some "H", css := [], route := () },
                      { scripts := ["C"], hoistedScript := none, css := [], route := () }],
            entrySpecifierToBundleMap := [] }
          (fun _ => Json.null)).routes.map (fun r => r.scripts)) = [["H", "A", "B"], ["C"]] := by
  constructor
  · simp only [buildManifest]
    rw [List.map_map]
    rfl
  · rfl

/-- C9: for a non-asset chunk containing the virtual module whose code holds
the quoted placeholder token (first occurrence; the part before it contains
no quote character, so the permissive pattern matches at the token), the
`generateBundle` substitution replaces exactly the quoted token with
`JSON.stringify(manifest)`; parsing that substituted region as JSON succeeds
and decoding it reproduces the manifest's `routes`, `site` and
`entryModules` fields exactly. -/
theorem generateBundle_manifest_roundtrip {Rd : Type} (opts : StaticBuildOptions)
    (internals : BuildInternals Rd) (serializeRouteData : Rd → Json) (chunk : Chunk)
    (preL postL : List Char) (q1 q2 : Char)
    (hasset : chunk.isAsset = false)
    (hmod : chunk.modules.contains resolvedVirtualModuleId = true)
    (hq1 : isQuote q1 = true) (hq2 : isQuote q2 = true)
    (hpre : ∀ c ∈ preL, isQuote c = false)
    (hcode : chunk.code.data = preL ++ q1 :: (manifestReplace.data ++ q2 :: postL)) :
    ((generateBundle opts internals serializeRouteData [chunk]).map (fun ch => ch.code.data)
      = [preL ++ ((jsonStringify (buildManifest opts internals serializeRouteData)).data
          ++ postL)])
    ∧ Json.parse (jsonStringify (buildManifest opts internals serializeRouteData))
        = some (manifestJson (buildManifest opts internals serializeRouteData))
    ∧ decodeManifestFields (manifestJson (buildManifest opts internals serializeRouteData))
        = some ((buildManifest opts internals serializeRouteData).routes,
                (buildManifest opts internals serializeRouteData).site,
                (buildManifest opts internals serializeRouteData).entryModules) := by
  refine ⟨?_, Json.parse_render _, decodeManifestFields_roundtrip _⟩
  simp only [generateBundle, List.map_cons, List.map_nil, hasset, hmod, Bool.false_eq_true,
    if_false, if_true]
  rw [hcode,
    replaceFirst_at (jsonStringify (buildManifest opts internals serializeRouteData)).data
      preL hpre q1 q2 hq1 hq2 postL]

/-- C9 witness: a one-page-less manifest injected into a concrete chunk
`x='@@ASTRO_MANIFEST_REPLACE@@';`. -/
theorem generateBundle_manifest_roundtrip_witness :
    ((generateBundle
        { astroConfig := { site := some "s", markdownRenderJson := Json.null } }
        ({ pages := [], entrySpecifierToBundleMap := [] } : BuildInternals Unit)
        (fun _ => Json.null)
        [{ isAsset := false, modules := [resolvedVirtualModuleId],
           code := String.mk ("x=".data ++ Char.ofNat 39 ::
             (manifestReplace.data ++ Char.ofNat 39 :: ";".data)) }]).map
        (fun ch => ch.code.data)
      = ["x=".data ++ ((jsonStringify (buildManifest
            { astroConfig := { site := some "s", markdownRenderJson := Json.null } }
            ({ pages := [], entrySpecifierToBundleMap := [] } : BuildInternals Unit)
            (fun _ => Json.null))).data ++ ";".data)])
    ∧ Json.parse (jsonStringify (buildManifest
          { astroConfig := { site := some "s", markdownRenderJson := Json.null } }
          ({ pages := [], entrySpecifierToBundleMap := [] } : BuildInternals Unit)
          (fun _ => Json.null)))
        = some (manifestJson (buildManifest
            { astroConfig := { site := some "s", markdownRenderJson := Json.null } }
            ({ pages := [], entrySpecifierToBundleMap := [] } : BuildInternals Unit)
            (fun _ => Json.null)))
    ∧ decodeManifestFields (manifestJson (buildManifest
          { astroConfig := { site := some "s", markdownRenderJson := Json.null } }
          ({ pages := [], entrySpecifierToBundleMap := [] } : BuildInternals Unit)
          (fun _ => Json.null)))
        = some ((buildManifest
              { astroConfig := { site := some "s", markdownRenderJson := Json.null } }
              ({ pages := [], entrySpecifierToBundleMap := [] } : BuildInternals Unit)
              (fun _ => Json.null)).routes,
            (buildManifest
              { astroConfig := { site := some "s", markdownRenderJson := Json.null } }
              ({ pages := [], entrySpecifierToBundleMap := [] } : BuildInternals Unit)
              (fun _ => Json.null)).site,
            (buildManifest
              { astroConfig := { site := some "s", markdownRenderJson := Json.null } }
              ({ pages := [], entrySpecifierToBundleMap := [] } : BuildInternals Unit)
              (fun _ => Json.null)).entryModules) :=
  generateBundle_manifest_roundtrip
    { astroConfig := { site := some "s", markdownRenderJson := Json.null } }
    ({ pages := [], entrySpecifierToBundleMap := [] } : BuildInternals Unit)
    (fun _ => Json.null)
    { isAsset := false, modules := [resolvedVirtualModuleId],
      code := String.mk ("x=".data ++ Char.ofNat 39 ::
        (manifestReplace.data ++ Char.ofNat 39 :: ";".data)) }
    "x=".data ";".data (Char.ofNat 39) (Char.ofNat 39)
    rfl (by decide) (by decide) (by decide) (by decide) rfl

/-- C10: `buildManifest` leaves the build internals untouched: the
before-hydration override lands on the fresh `Object.fromEntries` copy, so
the state-transformer view returns the internals (and in particular the
specifier→bundle table) exactly as supplied. -/
theorem buildManifest_preserves_internals {Rd : Type} (opts : StaticBuildOptions)
    (internals : BuildInternals Rd) (serializeRouteData : Rd → Json) :
    (buildManifestSt opts internals serializeRouteData).2 = internals
    ∧ (buildManifestSt opts internals serializeRouteData).2.entrySpecifierToBundleMap
        = internals.entrySpecifierToBundleMap
    ∧ (buildManifestSt opts internals serializeRouteData).1
        = buildManifest opts internals serializeRouteData :=
  ⟨rfl, rfl, rfl⟩

end AstroSSR
